import Mathlib

/-!
A verification development for the `sort_images` utility (`main.go`).

The program enumerates image files under a source directory (classifying by
leading-byte signatures), extracts a capture date from embedded metadata,
creates `<destination>/YYYY/MM/DD` directories and copies each image there.

The shallow embedding below follows the Go source:
* `Image` mirrors the `Image` struct.
* `walkForest` / `getImages` mirror `getImages` and its `filepath.Walk`
  callback; a `FSTree.bad` node models an entry whose visit produces a
  traversal error (the callback receiving a non-nil `err`, or `os.Open`
  failing inside the callback).
* `getDate` mirrors `getDate`; the external EXIF library is modelled as a
  function from file contents to an optional (year, month, day).
* `copyFile` / `copyFileContents` mirror the two copy functions, over an
  association-list file store; node ids model inode identity (`os.SameFile`).
* `run` mirrors `main`'s control flow: flag check, source validation,
  enumeration, the date loop, the directory-creation loop and the copy loop,
  returning an exit code, the final store and the reported error events.

Modelling assumptions (stated once here): paths are joined by plain
`"/"` concatenation (the source and destination roots are taken to be
cleaned absolute paths, so `filepath.Join`/`filepath.Abs` act as
concatenation); `file.Stat` on a successfully opened source never fails
(that error path of `main` is not exercised by any claim); the external
`filetype.IsImage` classifier is modelled by prefix signature matching for
representative image types.
-/

namespace SortImages

/-- Mirrors the Go `Image` struct: base filename, absolute source path and
the capture date, zero-valued until the date loop fills it in. -/
structure Image where
  name : String
  path : String
  year : Nat
  month : Nat
  day : Nat
deriving Repr, DecidableEq

/-- `startsWith sig bs`: the byte list `bs` begins with the signature `sig`. -/
def startsWith : List Nat → List Nat → Bool
  | [], _ => true
  | _ :: _, [] => false
  | s :: ss, b :: bs => s == b && startsWith ss bs

/-- Models the external `filetype.IsImage` library call: signature matching
on the leading bytes for representative image types (JPEG, PNG, GIF, BMP,
PSD, ICO, TIFF little/big endian). -/
def isImage (bs : List Nat) : Bool :=
  startsWith [255, 216, 255] bs ||
  startsWith [137, 80, 78, 71] bs ||
  startsWith [71, 73, 70] bs ||
  startsWith [66, 77] bs ||
  startsWith [56, 66, 80, 83] bs ||
  startsWith [0, 0, 1, 0] bs ||
  startsWith [73, 73, 42, 0] bs ||
  startsWith [77, 77, 0, 42] bs

/-- The 261-byte head buffer passed to the classifier: `main.go` allocates a
zero-filled 261-byte buffer and issues one `Read`, ignoring the byte count,
so short files leave trailing zero bytes in the buffer. -/
def head261 (c : List Nat) : List Nat :=
  c.take 261 ++ List.replicate (261 - c.length) 0

mutual
/-- A filesystem tree entry as seen by `filepath.Walk`: a regular file with
contents, a directory with children, or an entry whose visit produces a
traversal error (`bad`). -/
inductive FSTree where
  | file (name : String) (content : List Nat)
  | bad (name : String)
  | dir (name : String) (children : FSForest)
/-- A sequence of sibling entries, in the traversal order of `filepath.Walk`
(lexical order of names). -/
inductive FSForest where
  | nil
  | cons (hd : FSTree) (tl : FSForest)
end

mutual
/-- No entry in the tree produces a traversal error. -/
def noBadTree : FSTree → Bool
  | .file _ _ => true
  | .bad _ => false
  | .dir _ ch => noBadForest ch
/-- No entry in the forest produces a traversal error. -/
def noBadForest : FSForest → Bool
  | .nil => true
  | .cons t ts => noBadTree t && noBadForest ts
end

mutual
/-- The `filepath.Walk` callback of `getImages`, over one entry rooted at
directory path `d`: directories recurse without collecting, a regular file
is collected when its head matches an image signature, and a `bad` entry
aborts the walk (the callback returns the error). Returns the images
appended so far and whether the walk aborted. -/
def walkTree (d : String) : FSTree → List Image × Bool
  | .file n c =>
    if isImage (head261 c) then ([⟨n, d ++ "/" ++ n, 0, 0, 0⟩], false)
    else ([], false)
  | .bad _ => ([], true)
  | .dir n ch => walkForest (d ++ "/" ++ n) ch
/-- The walk over a sequence of siblings: entries are visited in order and
an abort stops the traversal, keeping the images appended so far. -/
def walkForest (d : String) : FSForest → List Image × Bool
  | .nil => ([], false)
  | .cons t ts =>
    if (walkTree d t).2 then walkTree d t
    else ((walkTree d t).1 ++ (walkForest d ts).1, (walkForest d ts).2)
end

/-- Mirrors Go `getImages`: walk the tree collecting images, but on a
traversal error return `nil` (the images appended before the error are
discarded) together with the error. -/
def getImages (root : String) (entries : FSForest) : List Image × Bool :=
  if (walkForest root entries).2 then ([], true)
  else ((walkForest root entries).1, false)

mutual
/-- Spec-side enumerator (for the refinement claim about the Image
Enumerator): every regular file under the root, as (absolute path,
base filename, contents), in traversal order. -/
def specFilesTree (d : String) : FSTree → List (String × String × List Nat)
  | .file n c => [(d ++ "/" ++ n, n, c)]
  | .bad _ => []
  | .dir n ch => specFilesForest (d ++ "/" ++ n) ch
/-- Spec-side enumerator over a sequence of siblings. -/
def specFilesForest (d : String) : FSForest → List (String × String × List Nat)
  | .nil => []
  | .cons t ts => specFilesTree d t ++ specFilesForest d ts
end

/-- Spec-side image set: exactly the regular files whose leading bytes match
a known image signature, each recorded with its absolute path and base
filename (and a zero date). -/
def imagesOfFiles (fs : List (String × String × List Nat)) : List Image :=
  (fs.filter fun f => isImage (head261 f.2.2)).map
    fun f => ⟨f.2.1, f.1, 0, 0, 0⟩

/-- A filesystem node as seen through `os.Stat`: a regular file with an
inode id and contents, a directory, some other special file, or a path at
which `stat` fails with an error other than not-exist. -/
inductive Node where
  | regular (id : Nat) (content : List Nat)
  | directory (id : Nat)
  | special (id : Nat)
  | statFail
deriving Repr, DecidableEq

/-- The file store: an association list from absolute path to node; a path
absent from the list does not exist (`os.IsNotExist`). -/
abbrev Store := List (String × Node)

/-- First-match association lookup, modelling `os.Stat` / `os.Open` by path. -/
def lookupStore : Store → String → Option Node
  | [], _ => none
  | (q, n) :: rest, p => if q = p then some n else lookupStore rest p

/-- Update the store at one path (create or overwrite the node there). -/
def insertStore : Store → String → Node → Store
  | [], p, n => [(p, n)]
  | (q, m) :: rest, p, n =>
    if q = p then (p, n) :: rest else (q, m) :: insertStore rest p n

/-- `os.FileInfo.Mode().IsRegular()`. -/
def nodeIsRegular : Node → Bool
  | .regular _ _ => true
  | _ => false

/-- `os.FileInfo.IsDir()`. -/
def nodeIsDir : Node → Bool
  | .directory _ => true
  | _ => false

/-- The inode identity compared by `os.SameFile`. -/
def nodeId : Node → Nat
  | .regular i _ => i
  | .directory i => i
  | .special i => i
  | .statFail => 0

/-- The error values `copyFile` / `copyFileContents` can return. -/
inductive CopyErr where
  | srcStat
  | srcNotRegular
  | dstStat
  | dstNotRegular
  | openFail
  | createFail
deriving Repr, DecidableEq

/-- Mirrors Go `copyFileContents`: open the source for reading, create (or
truncate) the destination and stream all bytes. `os.Create` keeps the inode
of an existing regular destination and otherwise allocates a fresh one
(`fresh`). -/
def copyFileContents (s : Store) (fresh : Nat) (src dst : String) :
    Except CopyErr Store :=
  match lookupStore s src with
  | some (Node.regular _ c) =>
    match lookupStore s dst with
    | some (Node.regular did _) => Except.ok (insertStore s dst (Node.regular did c))
    | none => Except.ok (insertStore s dst (Node.regular fresh c))
    | some _ => Except.error CopyErr.createFail
  | _ => Except.error CopyErr.openFail

/-- Mirrors Go `copyFile`: the source must stat as a regular file; if the
destination exists it must be regular; if source and destination are the
same underlying file (`os.SameFile`) return the last error value, which is
`nil` there, without copying; otherwise copy the contents. -/
def copyFile (s : Store) (fresh : Nat) (src dst : String) :
    Except CopyErr Store :=
  match lookupStore s src with
  | none => Except.error CopyErr.srcStat
  | some Node.statFail => Except.error CopyErr.srcStat
  | some sn =>
    if nodeIsRegular sn then
      match lookupStore s dst with
      | none => copyFileContents s fresh src dst
      | some Node.statFail => Except.error CopyErr.dstStat
      | some dn =>
        if nodeIsRegular dn then
          if nodeId sn == nodeId dn then Except.ok s
          else copyFileContents s fresh src dst
        else Except.error CopyErr.dstNotRegular
    else Except.error CopyErr.srcNotRegular

/-- Left-pad the decimal numeral of `n` with zeros to width `w`, modelling
the Go format verbs `%04d` / `%02d` for non-negative values. -/
def padZero (w : Nat) (n : Nat) : String :=
  let s := toString n
  if s.length < w then String.mk (List.replicate (w - s.length) '0') ++ s else s

/-- The destination date directory of a record:
`filepath.Join(dest, fmt.Sprintf("%04d/%02d/%02d", year, month, day))`. -/
def destDirPath (dest : String) (img : Image) : String :=
  dest ++ "/" ++ padZero 4 img.year ++ "/" ++ padZero 2 img.month ++ "/" ++
    padZero 2 img.day

/-- The destination file path of a record: the date directory joined with
the original base filename. -/
def destFilePath (dest : String) (img : Image) : String :=
  destDirPath dest img ++ "/" ++ img.name

/-- The command-line configuration after `flag.Parse`: flag values plus
whether `-destination` was seen (`flag.Visit`). -/
structure Config where
  source : String
  destination : String
  dryRun : Bool
  destinationSeen : Bool

/-- The world a run executes against: the file store (consulted by source
validation, `getDate`, the `os.Stat` checks of the directory loop and
`copyFile`), the source directory's entries as walked by `filepath.Walk`,
which `os.MkdirAll` calls succeed, and the external EXIF library modelled
as a function from file contents to an optional (year, month, day). -/
structure World where
  store : Store
  tree : FSForest
  mkdirOk : String → Bool
  exifDate : List Nat → Option (Nat × Nat × Nat)

/-- Errors reported to the error stream during a run. -/
inductive Event where
  | walkError
  | mkdirError (path : String)
  | copyError (src dst : String)
deriving Repr, DecidableEq

/-- The observable outcome of a run: the exit status, the final file store
and the reported error events in order. -/
structure RunResult where
  exit : Nat
  store : Store
  events : List Event
deriving Repr, DecidableEq

/-- Mirrors Go `getDate` together with its call site's `continue`: open the
image's path, decode EXIF metadata and extract the date; on any failure the
record is returned unchanged (the loop continues with the next record). -/
def getDate (w : World) (img : Image) : Image :=
  match lookupStore w.store img.path with
  | some (Node.regular _ c) =>
    match w.exifDate c with
    | some d => { img with year := d.1, month := d.2.1, day := d.2.2 }
    | none => img
  | _ => img

/-- Mirrors the directory-creation loop of `main`: for each record, if
`os.Stat` of the date directory reports not-exist, call `os.MkdirAll`; a
failed `MkdirAll` stops the loop immediately, returning the failing path
(`main` exits with status 1 there). -/
def mkdirPhase (dest : String) (ok : String → Bool) :
    Store → List Image → Store × Option String
  | s, [] => (s, none)
  | s, img :: rest =>
    match lookupStore s (destDirPath dest img) with
    | none =>
      if ok (destDirPath dest img) then
        mkdirPhase dest ok
          (insertStore s (destDirPath dest img) (Node.directory 0)) rest
      else (s, some (destDirPath dest img))
    | some _ => mkdirPhase dest ok s rest

/-- Mirrors the copy loop of `main`: each record is copied to its
destination path; a failed `copyFile` is reported and the loop continues
with the next record. The fresh-inode counter advances per iteration. -/
def copyPhase (dest : String) : Store → Nat → List Image → Store × List Event
  | s, _, [] => (s, [])
  | s, f, img :: rest =>
    match copyFile s f img.path (destFilePath dest img) with
    | Except.ok s2 => copyPhase dest s2 (f + 1) rest
    | Except.error _ =>
      ((copyPhase dest s (f + 1) rest).1,
        Event.copyError img.path (destFilePath dest img) ::
          (copyPhase dest s (f + 1) rest).2)

/-- The pipeline `main` runs once the configuration is validated:
enumeration (a traversal error is reported and enumeration's `nil` result
is kept), the date loop, the directory-creation loop (a failure exits with
status 1) and the copy loop (failures are reported, the run exits 0). -/
def runPipeline (cfg : Config) (w : World) : RunResult :=
  let er := getImages cfg.source w.tree
  let evs0 : List Event := if er.2 then [Event.walkError] else []
  let imgs := er.1.map (getDate w)
  match mkdirPhase cfg.destination w.mkdirOk w.store imgs with
  | (s1, some p) => ⟨1, s1, evs0 ++ [Event.mkdirError p]⟩
  | (s1, none) =>
    ⟨0, (copyPhase cfg.destination s1 0 imgs).1,
      evs0 ++ (copyPhase cfg.destination s1 0 imgs).2⟩

/-- Mirrors `main`: exit 2 if `-destination` was not seen; exit 1 if the
source cannot be opened; exit 2 if the source is not a directory; then run
the pipeline. The `dry-run` flag is parsed but never consulted. -/
def run (cfg : Config) (w : World) : RunResult :=
  if cfg.destinationSeen then
    match lookupStore w.store cfg.source with
    | none => ⟨1, w.store, []⟩
    | some n =>
      if n = Node.statFail then ⟨1, w.store, []⟩
      else if nodeIsDir n then runPipeline cfg w
      else ⟨2, w.store, []⟩
  else ⟨2, w.store, []⟩

/-! Concrete example data used by the witness theorems. -/

/-- A minimal JPEG signature (`FF D8 FF`). -/
def jpegSig : List Nat := [255, 216, 255]

/-- A source tree holding one JPEG file. -/
def exTree : FSForest := .cons (.file "a.jpg" jpegSig) .nil

/-- A source tree holding one JPEG file followed by an entry whose visit
produces a traversal error. -/
def exBadTree : FSForest := .cons (.file "a.jpg" jpegSig) (.cons (.bad "z") .nil)

/-- A store with the source directory and the JPEG file. -/
def exStore : Store := [("/src", Node.directory 0), ("/src/a.jpg", Node.regular 1 jpegSig)]

/-- An EXIF model that reads 2021-06-15 from the example JPEG's bytes. -/
def exExif : List Nat → Option (Nat × Nat × Nat) :=
  fun c => if c == jpegSig then some (2021, 6, 15) else none

/-- The standard example world: one dated JPEG, all `MkdirAll` calls
succeed. -/
def exWorld : World :=
  { store := exStore, tree := exTree, mkdirOk := fun _ => true, exifDate := exExif }

/-- The example world with a traversal error after the JPEG. -/
def exBadWorld : World :=
  { store := exStore, tree := exBadTree, mkdirOk := fun _ => true, exifDate := exExif }

/-- The example world where every `MkdirAll` call fails. -/
def exMkdirFailWorld : World :=
  { store := exStore, tree := exTree, mkdirOk := fun _ => false, exifDate := exExif }

/-- A world whose walkable tree shows the JPEG but whose store has no file
at its path, so the per-image copy fails. -/
def exCopyFailWorld : World :=
  { store := [("/src", Node.directory 0)], tree := exTree,
    mkdirOk := fun _ => true, exifDate := exExif }

/-- The standard example configuration. -/
def exCfg : Config :=
  { source := "/src", destination := "/dst", dryRun := true, destinationSeen := true }

/-- A world whose source path exists but is a regular file, not a
directory. -/
def exBadSrcWorld : World :=
  { store := [("/src", Node.regular 1 [])], tree := .nil,
    mkdirOk := fun _ => true, exifDate := exExif }

/-- The example configuration with the required `-destination` flag not
seen. -/
def exCfgNoDest : Config :=
  { source := "/src", destination := "/dst", dryRun := true,
    destinationSeen := false }

/-! Helper lemmas about the store. -/

theorem lookupStore_insertStore_self (s : Store) (p : String) (n : Node) :
    lookupStore (insertStore s p n) p = some n := by
  induction s with
  | nil => simp [insertStore, lookupStore]
  | cons hd tl ih =>
    obtain ⟨q, m⟩ := hd
    by_cases h : q = p
    · simp [insertStore, h, lookupStore]
    · simp [insertStore, h, lookupStore, ih]

theorem lookupStore_insertStore_ne (s : Store) (p q : String) (n : Node)
    (h : p ≠ q) : lookupStore (insertStore s p n) q = lookupStore s q := by
  induction s with
  | nil => simp [insertStore, lookupStore, h]
  | cons hd tl ih =>
    obtain ⟨r, m⟩ := hd
    by_cases hr : r = p
    · subst hr
      simp [insertStore, lookupStore, h]
    · simp [insertStore, hr, lookupStore, ih]

/-- C8: if the source and the destination of a `copyFile` call resolve to
the identical underlying file (both stat as regular files with the same
inode identity), the call takes the `os.SameFile` branch and returns the
store unchanged: no write is performed and the file's contents are neither
corrupted nor truncated. -/
theorem c8_samefile_noop (s : Store) (f : Nat) (src dst : String) (i j : Nat)
    (c c' : List Nat)
    (hsrc : lookupStore s src = some (Node.regular i c))
    (hdst : lookupStore s dst = some (Node.regular j c'))
    (hij : i = j) :
    copyFile s f src dst = Except.ok s := by
  subst hij
  unfold copyFile
  rw [hsrc, hdst]
  simp [nodeIsRegular, nodeId]

theorem c8_samefile_noop_witness :
    copyFile [("/a", Node.regular 3 [1, 2]), ("/b", Node.regular 3 [1, 2])] 0
        "/a" "/b" =
      Except.ok [("/a", Node.regular 3 [1, 2]), ("/b", Node.regular 3 [1, 2])] :=
  c8_samefile_noop _ 0 "/a" "/b" 3 3 [1, 2] [1, 2] (by decide) (by decide) rfl

/-- C9: `copyFile` fails with an error when the source is not a regular
file, and when the destination already exists and is not a regular file;
in both cases the error is returned before `copyFileContents` runs, so no
bytes are written to the destination (the store is not touched). -/
theorem c9_copyFile_rejects_nonregular (s : Store) (f : Nat) (src dst : String)
    (sn dn : Node) :
    (lookupStore s src = some sn → nodeIsRegular sn = false →
      sn ≠ Node.statFail →
      copyFile s f src dst = Except.error CopyErr.srcNotRegular) ∧
    (lookupStore s src = some sn → nodeIsRegular sn = true →
      lookupStore s dst = some dn → nodeIsRegular dn = false →
      dn ≠ Node.statFail →
      copyFile s f src dst = Except.error CopyErr.dstNotRegular) := by
  constructor
  · intro hsrc hreg hsf
    unfold copyFile
    rw [hsrc]
    cases sn <;> simp_all [nodeIsRegular]
  · intro hsrc hreg hdst hdreg hdsf
    unfold copyFile
    rw [hsrc]
    cases sn <;> simp_all [nodeIsRegular]

theorem c9_copyFile_rejects_nonregular_witness :
    copyFile [("/d", Node.directory 5), ("/r", Node.regular 1 [7]),
        ("/sp", Node.special 9)] 0 "/d" "/x" =
      Except.error CopyErr.srcNotRegular ∧
    copyFile [("/d", Node.directory 5), ("/r", Node.regular 1 [7]),
        ("/sp", Node.special 9)] 0 "/r" "/sp" =
      Except.error CopyErr.dstNotRegular :=
  ⟨(c9_copyFile_rejects_nonregular _ 0 "/d" "/x" (Node.directory 5)
      (Node.directory 5)).1 (by decide) (by decide) (by decide),
   (c9_copyFile_rejects_nonregular _ 0 "/r" "/sp" (Node.regular 1 [7])
      (Node.special 9)).2 (by decide) (by decide) (by decide) (by decide)
      (by decide)⟩

/-- C10: the `dry-run` flag is parsed into the configuration but never
consulted: two runs that differ only in its value produce identical
results (same exit status, same final store, same reported events), so the
flag gates no directory creation or copy side effect. -/
theorem c10_dry_run_never_consulted (s d : String) (b1 b2 seen : Bool)
    (w : World) :
    run ⟨s, d, b1, seen⟩ w = run ⟨s, d, b2, seen⟩ w := rfl

/-- C5: configuration errors exit with status 2. If `-destination` was not
seen, the run exits 2 with the store untouched and nothing reported (it
exits before reading or creating any filesystem entry); if the source
names an existing path (one that stats without error) that is not a
directory, the run exits 2, also leaving the store untouched. -/
theorem c5_config_errors_exit_2 (cfg : Config) (w : World) (n : Node) :
    (cfg.destinationSeen = false →
      run cfg w = ⟨2, w.store, []⟩) ∧
    (cfg.destinationSeen = true →
      lookupStore w.store cfg.source = some n →
      nodeIsDir n = false → n ≠ Node.statFail →
      run cfg w = ⟨2, w.store, []⟩) := by
  constructor
  · intro h
    unfold run
    rw [h]
    simp
  · intro hseen hsrc hdir hsf
    unfold run
    rw [hseen]
    simp only [if_true]
    rw [hsrc]
    simp [hsf, hdir]

theorem c5_config_errors_exit_2_witness :
    run exCfgNoDest exWorld = ⟨2, exWorld.store, []⟩ ∧
    run exCfg exBadSrcWorld = ⟨2, exBadSrcWorld.store, []⟩ :=
  ⟨(c5_config_errors_exit_2 exCfgNoDest exWorld Node.statFail).1 rfl,
   (c5_config_errors_exit_2 exCfg exBadSrcWorld (Node.regular 1 [])).2 rfl
     (by decide) (by decide) (by decide)⟩

theorem imagesOfFiles_append (a b : List (String × String × List Nat)) :
    imagesOfFiles (a ++ b) = imagesOfFiles a ++ imagesOfFiles b := by
  simp [imagesOfFiles, List.filter_append]

mutual
/-- On an error-free entry, the walk collects exactly the spec-side image
set and does not abort. -/
theorem walkTree_eq_spec (d : String) (t : FSTree) (h : noBadTree t = true) :
    walkTree d t = (imagesOfFiles (specFilesTree d t), false) := by
  cases t with
  | file n c =>
    by_cases hi : isImage (head261 c) = true
    · simp [walkTree, specFilesTree, imagesOfFiles, hi]
    · simp [walkTree, specFilesTree, imagesOfFiles, hi]
  | bad n => simp [noBadTree] at h
  | dir n ch =>
    have h' : noBadForest ch = true := by simpa [noBadTree] using h
    simp [walkTree, specFilesTree, walkForest_eq_spec (d ++ "/" ++ n) ch h']
/-- On an error-free forest, the walk collects exactly the spec-side image
set and does not abort. -/
theorem walkForest_eq_spec (d : String) (ts : FSForest)
    (h : noBadForest ts = true) :
    walkForest d ts = (imagesOfFiles (specFilesForest d ts), false) := by
  cases ts with
  | nil => simp [walkForest, specFilesForest, imagesOfFiles]
  | cons t ts' =>
    have h1 : noBadTree t = true := by
      have h' := h
      simp [noBadForest, Bool.and_eq_true] at h'
      exact h'.1
    have h2 : noBadForest ts' = true := by
      have h' := h
      simp [noBadForest, Bool.and_eq_true] at h'
      exact h'.2
    simp [walkForest, walkTree_eq_spec d t h1, walkForest_eq_spec d ts' h2,
      specFilesForest, imagesOfFiles_append]
end

mutual
/-- Every image the walk collects still has its zero default date. -/
theorem walkTree_zeroDate (d : String) (t : FSTree) (img : Image)
    (h : img ∈ (walkTree d t).1) :
    img.year = 0 ∧ img.month = 0 ∧ img.day = 0 := by
  cases t with
  | file n c =>
    by_cases hi : isImage (head261 c) = true
    · simp [walkTree, hi] at h
      subst h
      exact ⟨rfl, rfl, rfl⟩
    · simp [walkTree, hi] at h
  | bad n => simp [walkTree] at h
  | dir n ch =>
    exact walkForest_zeroDate (d ++ "/" ++ n) ch img (by simpa [walkTree] using h)
/-- Every image the forest walk collects still has its zero default date. -/
theorem walkForest_zeroDate (d : String) (ts : FSForest) (img : Image)
    (h : img ∈ (walkForest d ts).1) :
    img.year = 0 ∧ img.month = 0 ∧ img.day = 0 := by
  cases ts with
  | nil => simp [walkForest] at h
  | cons t ts' =>
    simp only [walkForest] at h
    by_cases hb : (walkTree d t).2 = true
    · rw [if_pos hb] at h
      exact walkTree_zeroDate d t img h
    · rw [if_neg hb] at h
      simp only [List.mem_append] at h
      cases h with
      | inl h => exact walkTree_zeroDate d t img h
      | inr h => exact walkForest_zeroDate d ts' img h
end

/-- Once the configuration is validated (`-destination` seen, source opens
and is a directory), `run` is the pipeline. -/
theorem run_eq_runPipeline (cfg : Config) (w : World) (n : Node)
    (hseen : cfg.destinationSeen = true)
    (hsrc : lookupStore w.store cfg.source = some n)
    (hdir : nodeIsDir n = true) :
    run cfg w = runPipeline cfg w := by
  have hsf : n ≠ Node.statFail := by
    cases n <;> simp_all [nodeIsDir]
  unfold run
  rw [hseen]
  simp only [if_true]
  rw [hsrc]
  simp [hsf, hdir]

/-- C2: the Image Enumerator's output is exactly the spec-side set: every
regular file under the root whose leading bytes (zero-padded to the
261-byte head buffer) match a known image signature is included, with its
absolute path and base filename, files with non-image signatures are
excluded, and a tree containing only non-image files yields the empty
list. -/
theorem c2_enumerator_exact (root : String) (es : FSForest)
    (h : noBadForest es = true) :
    getImages root es = (imagesOfFiles (specFilesForest root es), false) ∧
    ((∀ f ∈ specFilesForest root es, isImage (head261 f.2.2) = false) →
      (getImages root es).1 = []) := by
  have key := walkForest_eq_spec root es h
  have h1 : getImages root es = (imagesOfFiles (specFilesForest root es), false) := by
    simp [getImages, key]
  refine ⟨h1, fun hall => ?_⟩
  rw [h1]
  simp only [imagesOfFiles, List.map_eq_nil_iff, List.filter_eq_nil_iff]
  exact fun a ha => by simp [hall a ha]

theorem c2_enumerator_exact_witness :
    getImages "/src" exTree =
      (imagesOfFiles (specFilesForest "/src" exTree), false) ∧
    (getImages "/src" (.cons (.file "n.txt" [104, 105]) .nil)).1 = [] :=
  ⟨(c2_enumerator_exact "/src" exTree (by decide)).1,
   (c2_enumerator_exact "/src" (.cons (.file "n.txt" [104, 105]) .nil)
      (by decide)).2 (by decide)⟩

/-- C3: for an enumerated image whose date extraction fails (its path is
unreadable in the store, or the EXIF model yields no date), `getDate`
returns the record unchanged, its date components are still the zero
defaults, the record still proceeds into the post-date-loop list, and its
placement and copy paths are the `0000/00/00` directory. -/
theorem c3_failed_date_zero_directory (root : String) (es : FSForest)
    (w : World) (dest : String) (img : Image)
    (hmem : img ∈ (getImages root es).1)
    (hfail : ∀ i c, lookupStore w.store img.path = some (Node.regular i c) →
      w.exifDate c = none) :
    getDate w img = img ∧
    img.year = 0 ∧ img.month = 0 ∧ img.day = 0 ∧
    img ∈ (getImages root es).1.map (getDate w) ∧
    destDirPath dest img = dest ++ "/0000/00/00" ∧
    destFilePath dest img = dest ++ "/0000/00/00/" ++ img.name := by
  have hgd : getDate w img = img := by
    unfold getDate
    cases hl : lookupStore w.store img.path with
    | none => rfl
    | some nd =>
      cases nd with
      | regular i c => simp [hfail i c hl]
      | directory i => rfl
      | special i => rfl
      | statFail => rfl
  have hzero : img.year = 0 ∧ img.month = 0 ∧ img.day = 0 := by
    simp only [getImages] at hmem
    by_cases hb : (walkForest root es).2 = true
    · rw [if_pos hb] at hmem
      simp at hmem
    · rw [if_neg hb] at hmem
      exact walkForest_zeroDate root es img hmem
  obtain ⟨hy, hm, hd⟩ := hzero
  have h4 : padZero 4 0 = "0000" := by decide
  have h2 : padZero 2 0 = "00" := by decide
  have hdir : destDirPath dest img = dest ++ "/0000/00/00" := by
    simp only [destDirPath, hy, hm, hd, h4, h2, String.append_assoc]
    congr 1
  refine ⟨hgd, hy, hm, hd, ?_, hdir, ?_⟩
  · exact List.mem_map.mpr ⟨img, hmem, hgd⟩
  · simp only [destFilePath, hdir, String.append_assoc]
    congr 1

theorem c3_failed_date_zero_directory_witness :
    getDate exCopyFailWorld ⟨"a.jpg", "/src/a.jpg", 0, 0, 0⟩ =
      ⟨"a.jpg", "/src/a.jpg", 0, 0, 0⟩ ∧
    destDirPath "/dst" ⟨"a.jpg", "/src/a.jpg", 0, 0, 0⟩ = "/dst/0000/00/00" :=
  ⟨(c3_failed_date_zero_directory "/src" exTree exCopyFailWorld "/dst"
      ⟨"a.jpg", "/src/a.jpg", 0, 0, 0⟩ (by decide)
      (fun i c hl => by
        rw [show lookupStore exCopyFailWorld.store "/src/a.jpg" = none from by decide]
          at hl
        exact Option.noConfusion hl)).1,
   (c3_failed_date_zero_directory "/src" exTree exCopyFailWorld "/dst"
      ⟨"a.jpg", "/src/a.jpg", 0, 0, 0⟩ (by decide)
      (fun i c hl => by
        rw [show lookupStore exCopyFailWorld.store "/src/a.jpg" = none from by decide]
          at hl
        exact Option.noConfusion hl)).2.2.2.2.2.1⟩

/-- C4 counterexample: on a source containing one JPEG followed by an entry
whose visit produces a traversal error, the walk has collected the JPEG
before the error, but `getImages` returns `nil` and the run proceeds with
no images at all: it exits 0 reporting the walk error, with the store
untouched — the partial results gathered before the error are NOT carried
into the date-resolution and copy phases, contradicting the claim. -/
theorem c4_partial_results_counterexample :
    (walkForest "/src" exBadTree).1 = [⟨"a.jpg", "/src/a.jpg", 0, 0, 0⟩] ∧
    getImages "/src" exBadTree = ([], true) ∧
    run exCfg exBadWorld = ⟨0, exBadWorld.store, [Event.walkError]⟩ := by
  refine ⟨by decide, by decide, ?_⟩
  decide

/-- C4 (amended): when a traversal error occurs during enumeration,
enumeration aborts and the error is reported without terminating the
process, but the process continues to the date-resolution and copy phases
with an EMPTY image list — `getImages` discards the images gathered before
the error — so the run performs no directory creation or copying and
exits 0 with only the walk error reported. -/
theorem c4_traversal_error_empty_continue (cfg : Config) (w : World) (n : Node)
    (hseen : cfg.destinationSeen = true)
    (hsrc : lookupStore w.store cfg.source = some n)
    (hdir : nodeIsDir n = true)
    (habort : (walkForest cfg.source w.tree).2 = true) :
    getImages cfg.source w.tree = ([], true) ∧
    run cfg w = ⟨0, w.store, [Event.walkError]⟩ := by
  have hgi : getImages cfg.source w.tree = ([], true) := by
    simp [getImages, habort]
  refine ⟨hgi, ?_⟩
  rw [run_eq_runPipeline cfg w n hseen hsrc hdir]
  simp [runPipeline, hgi, mkdirPhase, copyPhase]

theorem c4_traversal_error_empty_continue_witness :
    getImages "/src" exBadWorld.tree = ([], true) ∧
    run exCfg exBadWorld = ⟨0, exBadWorld.store, [Event.walkError]⟩ :=
  c4_traversal_error_empty_continue exCfg exBadWorld (Node.directory 0)
    rfl (by decide) (by decide) (by decide)

/-- A record whose date directory does not exist and whose `MkdirAll`
fails stops the directory loop at once, returning the failing path. -/
theorem mkdirPhase_fail_head (dest : String) (ok : String → Bool) (s : Store)
    (img : Image) (rest : List Image)
    (hl : lookupStore s (destDirPath dest img) = none)
    (hok : ok (destDirPath dest img) = false) :
    mkdirPhase dest ok s (img :: rest) = (s, some (destDirPath dest img)) := by
  simp [mkdirPhase, hl, hok]

/-- Directory-loop step: the date directory does not exist and `MkdirAll`
succeeds, so the loop continues on the updated store. -/
theorem mkdirPhase_cons_none (dest : String) (ok : String → Bool) (s : Store)
    (img : Image) (rest : List Image)
    (hl : lookupStore s (destDirPath dest img) = none)
    (hok : ok (destDirPath dest img) = true) :
    mkdirPhase dest ok s (img :: rest) =
      mkdirPhase dest ok
        (insertStore s (destDirPath dest img) (Node.directory 0)) rest := by
  simp [mkdirPhase, hl, hok]

/-- Directory-loop step: the date directory already has a node, so no
`MkdirAll` is attempted and the loop continues unchanged. -/
theorem mkdirPhase_cons_some (dest : String) (ok : String → Bool) (s : Store)
    (img : Image) (rest : List Image) (nd : Node)
    (hl : lookupStore s (destDirPath dest img) = some nd) :
    mkdirPhase dest ok s (img :: rest) = mkdirPhase dest ok s rest := by
  simp [mkdirPhase, hl]

/-- If the directory loop over a first batch succeeds, the loop over a
longer list continues from the resulting store. -/
theorem mkdirPhase_append_ok (dest : String) (ok : String → Bool) (s s1 : Store)
    (a b : List Image) (h : mkdirPhase dest ok s a = (s1, none)) :
    mkdirPhase dest ok s (a ++ b) = mkdirPhase dest ok s1 b := by
  induction a generalizing s with
  | nil =>
    simp only [mkdirPhase, Prod.mk.injEq] at h
    rw [List.nil_append, h.1]
  | cons img rest ih =>
    cases hl : lookupStore s (destDirPath dest img) with
    | none =>
      by_cases hok : ok (destDirPath dest img) = true
      · rw [mkdirPhase_cons_none dest ok s img rest hl hok] at h
        rw [List.cons_append,
          mkdirPhase_cons_none dest ok s img (rest ++ b) hl hok]
        exact ih _ h
      · have hok' : ok (destDirPath dest img) = false := by
          simpa using hok
        rw [mkdirPhase_fail_head dest ok s img rest hl hok'] at h
        exact absurd (congrArg Prod.snd h) (by simp)
    | some nd =>
      rw [mkdirPhase_cons_some dest ok s img rest nd hl] at h
      rw [List.cons_append, mkdirPhase_cons_some dest ok s img (rest ++ b) nd hl]
      exact ih s h

/-- Copy-loop step: a successful copy advances to the next record on the
updated store. -/
theorem copyPhase_cons_ok (dest : String) (s : Store) (f : Nat) (img : Image)
    (rest : List Image) (s2 : Store)
    (hc : copyFile s f img.path (destFilePath dest img) = Except.ok s2) :
    copyPhase dest s f (img :: rest) = copyPhase dest s2 (f + 1) rest := by
  simp [copyPhase, hc]

/-- Copy-loop step: a failed copy is reported and the loop continues with
the next record on the unchanged store. -/
theorem copyPhase_cons_error (dest : String) (s : Store) (f : Nat) (img : Image)
    (rest : List Image) (e : CopyErr)
    (hc : copyFile s f img.path (destFilePath dest img) = Except.error e) :
    copyPhase dest s f (img :: rest) =
      ((copyPhase dest s (f + 1) rest).1,
        Event.copyError img.path (destFilePath dest img) ::
          (copyPhase dest s (f + 1) rest).2) := by
  simp [copyPhase, hc]

/-- The copy loop splits over list append: the second batch runs from the
first batch's final store, with the fresh counter advanced by the first
batch's length and the reported events concatenated. -/
theorem copyPhase_append (dest : String) (s : Store) (f : Nat)
    (a b : List Image) :
    copyPhase dest s f (a ++ b) =
      ((copyPhase dest (copyPhase dest s f a).1 (f + a.length) b).1,
        (copyPhase dest s f a).2 ++
          (copyPhase dest (copyPhase dest s f a).1 (f + a.length) b).2) := by
  induction a generalizing s f with
  | nil => simp [copyPhase]
  | cons img rest ih =>
    cases hc : copyFile s f img.path (destFilePath dest img) with
    | ok s2 =>
      rw [List.cons_append, copyPhase_cons_ok dest s f img (rest ++ b) s2 hc,
        copyPhase_cons_ok dest s f img rest s2 hc, ih s2 (f + 1)]
      simp only [List.length_cons]
      rw [show f + 1 + rest.length = f + (rest.length + 1) from by omega]
    | error e =>
      rw [List.cons_append, copyPhase_cons_error dest s f img (rest ++ b) e hc,
        copyPhase_cons_error dest s f img rest e hc, ih s (f + 1)]
      simp only [List.length_cons]
      rw [show f + 1 + rest.length = f + (rest.length + 1) from by omega]
      simp

/-- A successful `copyFile` changes the store only at the destination
path. -/
theorem copyFile_ok_lookup_ne (s : Store) (f : Nat) (src dst p : String)
    (s' : Store) (h : copyFile s f src dst = Except.ok s') (hp : dst ≠ p) :
    lookupStore s' p = lookupStore s p := by
  unfold copyFile at h
  cases hsrc : lookupStore s src with
  | none => rw [hsrc] at h; simp at h
  | some sn =>
    rw [hsrc] at h
    cases sn with
    | statFail => simp at h
    | directory k => simp [nodeIsRegular] at h
    | special k => simp [nodeIsRegular] at h
    | regular i c =>
      simp only [nodeIsRegular, if_true] at h
      cases hdst : lookupStore s dst with
      | none =>
        rw [hdst] at h
        unfold copyFileContents at h
        rw [hsrc, hdst] at h
        simp only [Except.ok.injEq] at h
        rw [← h]
        exact lookupStore_insertStore_ne s dst p _ hp
      | some dn =>
        rw [hdst] at h
        cases dn with
        | statFail => simp at h
        | directory k => simp [nodeIsRegular] at h
        | special k => simp [nodeIsRegular] at h
        | regular did cd =>
          simp only [nodeIsRegular, if_true, nodeId] at h
          by_cases hid : (i == did) = true
          · rw [if_pos hid] at h
            simp only [Except.ok.injEq] at h
            rw [← h]
          · rw [if_neg hid] at h
            unfold copyFileContents at h
            rw [hsrc, hdst] at h
            simp only [Except.ok.injEq] at h
            rw [← h]
            exact lookupStore_insertStore_ne s dst p _ hp

/-- A successful `copyFile` leaves the destination holding exactly the
source's bytes, provided any pre-existing same-inode destination already
held them (which a consistent filesystem guarantees for the
same-file-no-op branch). -/
theorem copyFile_ok_content (s : Store) (f : Nat) (src dst : String)
    (s' : Store) (i : Nat) (c : List Nat)
    (hsrc : lookupStore s src = some (Node.regular i c))
    (hsame : ∀ c2, lookupStore s dst = some (Node.regular i c2) → c2 = c)
    (h : copyFile s f src dst = Except.ok s') :
    ∃ j, lookupStore s' dst = some (Node.regular j c) := by
  unfold copyFile at h
  rw [hsrc] at h
  simp only [nodeIsRegular, if_true] at h
  cases hdst : lookupStore s dst with
  | none =>
    rw [hdst] at h
    unfold copyFileContents at h
    rw [hsrc, hdst] at h
    simp only [Except.ok.injEq] at h
    exact ⟨f, by rw [← h]; exact lookupStore_insertStore_self s dst _⟩
  | some dn =>
    rw [hdst] at h
    cases dn with
    | statFail => simp at h
    | directory k => simp [nodeIsRegular] at h
    | special k => simp [nodeIsRegular] at h
    | regular did cd =>
      simp only [nodeIsRegular, if_true, nodeId] at h
      by_cases hid : (i == did) = true
      · rw [if_pos hid] at h
        simp only [Except.ok.injEq] at h
        have hieq : i = did := by simpa using hid
        have hcd : cd = c := hsame cd (by rw [hdst, ← hieq])
        exact ⟨did, by rw [← h, hdst, hcd]⟩
      · rw [if_neg hid] at h
        unfold copyFileContents at h
        rw [hsrc, hdst] at h
        simp only [Except.ok.injEq] at h
        exact ⟨did, by rw [← h]; exact lookupStore_insertStore_self s dst _⟩

/-- The copy loop never touches a path that is not the destination path of
any record in the batch. -/
theorem copyPhase_lookup_ne (dest : String) (s : Store) (f : Nat)
    (l : List Image) (p : String)
    (hall : ∀ r ∈ l, destFilePath dest r ≠ p) :
    lookupStore (copyPhase dest s f l).1 p = lookupStore s p := by
  induction l generalizing s f with
  | nil => simp [copyPhase]
  | cons img rest ih =>
    cases hc : copyFile s f img.path (destFilePath dest img) with
    | ok s2 =>
      rw [copyPhase_cons_ok dest s f img rest s2 hc,
        ih s2 (f + 1) fun r hr => hall r (List.mem_cons_of_mem img hr)]
      exact copyFile_ok_lookup_ne s f img.path (destFilePath dest img) p s2 hc
        (hall img (List.mem_cons_self img rest))
    | error e =>
      rw [copyPhase_cons_error dest s f img rest e hc]
      exact ih s (f + 1) fun r hr => hall r (List.mem_cons_of_mem img hr)

/-- C6: if, while placing records, a date directory is absent and its
`MkdirAll` fails, the run reports the failing path and terminates
immediately with exit status 1: the final store is exactly the store the
directory loop had built before the failure (no further placement) and no
copy events are ever reported (no copying). -/
theorem c6_mkdir_failure_fatal (cfg : Config) (w : World) (n : Node)
    (imgs0 pre post : List Image) (wf : Bool) (r : Image) (s1 : Store)
    (hseen : cfg.destinationSeen = true)
    (hsrc : lookupStore w.store cfg.source = some n)
    (hdir : nodeIsDir n = true)
    (hga : getImages cfg.source w.tree = (imgs0, wf))
    (hsplit : imgs0.map (getDate w) = pre ++ r :: post)
    (hpre : mkdirPhase cfg.destination w.mkdirOk w.store pre = (s1, none))
    (hex : lookupStore s1 (destDirPath cfg.destination r) = none)
    (hfail : w.mkdirOk (destDirPath cfg.destination r) = false) :
    run cfg w = ⟨1, s1,
      (if wf then [Event.walkError] else []) ++
        [Event.mkdirError (destDirPath cfg.destination r)]⟩ := by
  have hmk : mkdirPhase cfg.destination w.mkdirOk w.store
      (imgs0.map (getDate w)) = (s1, some (destDirPath cfg.destination r)) := by
    rw [hsplit, mkdirPhase_append_ok cfg.destination w.mkdirOk w.store s1 pre
      (r :: post) hpre,
      mkdirPhase_fail_head cfg.destination w.mkdirOk s1 r post hex hfail]
  have hga1 : (getImages cfg.source w.tree).1 = imgs0 := by rw [hga]
  have hga2 : (getImages cfg.source w.tree).2 = wf := by rw [hga]
  rw [run_eq_runPipeline cfg w n hseen hsrc hdir]
  simp only [runPipeline]
  rw [hga1, hga2, hmk]

theorem c6_mkdir_failure_fatal_witness :
    run exCfg exMkdirFailWorld =
      ⟨1, exMkdirFailWorld.store,
        [Event.mkdirError (destDirPath "/dst" ⟨"a.jpg", "/src/a.jpg", 2021, 6, 15⟩)]⟩ :=
  c6_mkdir_failure_fatal exCfg exMkdirFailWorld (Node.directory 0)
    [⟨"a.jpg", "/src/a.jpg", 0, 0, 0⟩] [] []
    false ⟨"a.jpg", "/src/a.jpg", 2021, 6, 15⟩ exMkdirFailWorld.store
    rfl (by decide) (by decide) (by decide) (by decide) (by decide) (by decide)
    (by decide)

/-- C7: per-file copy failures are non-fatal. First conjunct: whenever the
run reaches the copy loop (configuration valid, directory loop succeeded),
the exit status is 0 no matter what the individual copies do. Second
conjunct: a record whose `copyFile` fails is reported to the error stream
and the loop continues with the remaining records from the unchanged
store. -/
theorem c7_copy_failures_nonfatal (cfg : Config) (w : World) (n : Node)
    (imgs0 : List Image) (wf : Bool) (s1 : Store) (dest : String) (s : Store)
    (f : Nat) (img : Image) (rest : List Image) (e : CopyErr) :
    (cfg.destinationSeen = true →
      lookupStore w.store cfg.source = some n →
      nodeIsDir n = true →
      getImages cfg.source w.tree = (imgs0, wf) →
      mkdirPhase cfg.destination w.mkdirOk w.store (imgs0.map (getDate w)) =
        (s1, none) →
      (run cfg w).exit = 0) ∧
    (copyFile s f img.path (destFilePath dest img) = Except.error e →
      copyPhase dest s f (img :: rest) =
        ((copyPhase dest s (f + 1) rest).1,
          Event.copyError img.path (destFilePath dest img) ::
            (copyPhase dest s (f + 1) rest).2)) := by
  constructor
  · intro hseen hsrc hdir hga hmk
    have hga1 : (getImages cfg.source w.tree).1 = imgs0 := by rw [hga]
    rw [run_eq_runPipeline cfg w n hseen hsrc hdir]
    simp only [runPipeline]
    rw [hga1, hmk]
  · intro hc
    exact copyPhase_cons_error dest s f img rest e hc

theorem c7_copy_failures_nonfatal_witness :
    (run exCfg exCopyFailWorld).exit = 0 ∧
    copyPhase "/dst"
        [("/src", Node.directory 0), ("/dst/0000/00/00", Node.directory 0)] 0
        [⟨"a.jpg", "/src/a.jpg", 0, 0, 0⟩] =
      ((copyPhase "/dst"
          [("/src", Node.directory 0), ("/dst/0000/00/00", Node.directory 0)]
          1 []).1,
        Event.copyError "/src/a.jpg"
            (destFilePath "/dst" ⟨"a.jpg", "/src/a.jpg", 0, 0, 0⟩) ::
          (copyPhase "/dst"
            [("/src", Node.directory 0), ("/dst/0000/00/00", Node.directory 0)]
            1 []).2) :=
  ⟨(c7_copy_failures_nonfatal exCfg exCopyFailWorld (Node.directory 0)
      [⟨"a.jpg", "/src/a.jpg", 0, 0, 0⟩] false
      [("/src", Node.directory 0), ("/dst/0000/00/00", Node.directory 0)]
      "/dst" [("/src", Node.directory 0)] 0 ⟨"a.jpg", "/src/a.jpg", 0, 0, 0⟩
      [] CopyErr.srcStat).1 rfl (by decide) (by decide) (by decide) (by decide),
   (c7_copy_failures_nonfatal exCfg exCopyFailWorld (Node.directory 0)
      [⟨"a.jpg", "/src/a.jpg", 0, 0, 0⟩] false
      [("/src", Node.directory 0), ("/dst/0000/00/00", Node.directory 0)]
      "/dst"
      [("/src", Node.directory 0), ("/dst/0000/00/00", Node.directory 0)] 0
      ⟨"a.jpg", "/src/a.jpg", 0, 0, 0⟩ [] CopyErr.srcStat).2 rfl⟩

/-- C1: an enumerated image whose contents carry a valid capture date
(year, month, day) is, after the date loop, destined for
`<destination>/<padded year>/<padded month>/<padded day>/<original name>`,
and when the run reaches it in the copy loop and its copy succeeds (and no
later record overwrites the same destination), the final store holds at
that path a regular file whose bytes are exactly the source file's bytes;
the run exits 0. -/
theorem c1_dated_image_copied (cfg : Config) (w : World) (n : Node)
    (imgs0 pre post : List Image) (wf : Bool) (s1 sb sc : Store)
    (eb : List Event) (img : Image) (i i2 : Nat) (c : List Nat) (y m d : Nat)
    (hseen : cfg.destinationSeen = true)
    (hsrc : lookupStore w.store cfg.source = some n)
    (hdir : nodeIsDir n = true)
    (hga : getImages cfg.source w.tree = (imgs0, wf))
    (hmem : img ∈ imgs0)
    (hcon : lookupStore w.store img.path = some (Node.regular i c))
    (hexif : w.exifDate c = some (y, m, d))
    (hsplit : imgs0.map (getDate w) = pre ++ getDate w img :: post)
    (hmk : mkdirPhase cfg.destination w.mkdirOk w.store (imgs0.map (getDate w)) =
      (s1, none))
    (hpre : copyPhase cfg.destination s1 0 pre = (sb, eb))
    (hsb : lookupStore sb img.path = some (Node.regular i2 c))
    (hok : copyFile sb pre.length (getDate w img).path
      (destFilePath cfg.destination (getDate w img)) = Except.ok sc)
    (hsame : ∀ c2, lookupStore sb (destFilePath cfg.destination (getDate w img)) =
      some (Node.regular i2 c2) → c2 = c)
    (hpost : ∀ r ∈ post, destFilePath cfg.destination r ≠
      destFilePath cfg.destination (getDate w img)) :
    (run cfg w).exit = 0 ∧
    destFilePath cfg.destination (getDate w img) =
      cfg.destination ++ "/" ++ padZero 4 y ++ "/" ++ padZero 2 m ++ "/" ++
        padZero 2 d ++ "/" ++ img.name ∧
    ∃ j, lookupStore (run cfg w).store
        (destFilePath cfg.destination (getDate w img)) =
      some (Node.regular j c) := by
  have hdated : getDate w img = ⟨img.name, img.path, y, m, d⟩ := by
    simp [getDate, hcon, hexif]
  have hga1 : (getImages cfg.source w.tree).1 = imgs0 := by rw [hga]
  have hrunstore : (run cfg w).store =
      (copyPhase cfg.destination s1 0 (imgs0.map (getDate w))).1 := by
    rw [run_eq_runPipeline cfg w n hseen hsrc hdir]
    simp only [runPipeline]
    rw [hga1, hmk]
  have hexit : (run cfg w).exit = 0 := by
    rw [run_eq_runPipeline cfg w n hseen hsrc hdir]
    simp only [runPipeline]
    rw [hga1, hmk]
  have hpathshape : destFilePath cfg.destination (getDate w img) =
      cfg.destination ++ "/" ++ padZero 4 y ++ "/" ++ padZero 2 m ++ "/" ++
        padZero 2 d ++ "/" ++ img.name := by
    rw [hdated]
    rfl
  refine ⟨hexit, hpathshape, ?_⟩
  have hsb' : lookupStore sb (getDate w img).path = some (Node.regular i2 c) := by
    rw [hdated]
    exact hsb
  have hcontent := copyFile_ok_content sb pre.length (getDate w img).path
    (destFilePath cfg.destination (getDate w img)) sc i2 c hsb' hsame hok
  obtain ⟨j, hj⟩ := hcontent
  refine ⟨j, ?_⟩
  rw [hrunstore, hsplit, copyPhase_append cfg.destination s1 0 pre
    (getDate w img :: post)]
  simp only [hpre, Nat.zero_add]
  rw [copyPhase_cons_ok cfg.destination sb pre.length (getDate w img) post sc hok]
  rw [copyPhase_lookup_ne cfg.destination sc (pre.length + 1) post
    (destFilePath cfg.destination (getDate w img)) hpost]
  exact hj

theorem c1_dated_image_copied_witness :
    (run exCfg exWorld).exit = 0 ∧
    destFilePath "/dst" (getDate exWorld ⟨"a.jpg", "/src/a.jpg", 0, 0, 0⟩) =
      "/dst" ++ "/" ++ padZero 4 2021 ++ "/" ++ padZero 2 6 ++ "/" ++
        padZero 2 15 ++ "/" ++ "a.jpg" ∧
    ∃ j, lookupStore (run exCfg exWorld).store
        (destFilePath "/dst" (getDate exWorld ⟨"a.jpg", "/src/a.jpg", 0, 0, 0⟩)) =
      some (Node.regular j jpegSig) :=
  c1_dated_image_copied exCfg exWorld (Node.directory 0)
    [⟨"a.jpg", "/src/a.jpg", 0, 0, 0⟩] [] [] false
    [("/src", Node.directory 0), ("/src/a.jpg", Node.regular 1 jpegSig),
      ("/dst/2021/06/15", Node.directory 0)]
    [("/src", Node.directory 0), ("/src/a.jpg", Node.regular 1 jpegSig),
      ("/dst/2021/06/15", Node.directory 0)]
    [("/src", Node.directory 0), ("/src/a.jpg", Node.regular 1 jpegSig),
      ("/dst/2021/06/15", Node.directory 0),
      ("/dst/2021/06/15/a.jpg", Node.regular 0 jpegSig)]
    [] ⟨"a.jpg", "/src/a.jpg", 0, 0, 0⟩ 1 1 jpegSig 2021 6 15
    rfl (by decide) (by decide) (by decide) (by decide) (by decide) (by decide)
    (by decide) (by decide) (by decide) (by decide) rfl
    (fun c2 h => by
      rw [show lookupStore
          [("/src", Node.directory 0), ("/src/a.jpg", Node.regular 1 jpegSig),
            ("/dst/2021/06/15", Node.directory 0)]
          (destFilePath exCfg.destination
            (getDate exWorld ⟨"a.jpg", "/src/a.jpg", 0, 0, 0⟩)) =
          none from by decide] at h
      exact Option.noConfusion h)
    (fun r hr => absurd hr (List.not_mem_nil r))

end SortImages
